import Mathlib

/-!
A shallow embedding of `src/froala-reactive.js`: a Meteor template adapter
that wraps the Froala Editor jQuery plugin.  JavaScript runtime values are
modelled by the inductive `JSVal`; a template data context (an "Options
Snapshot") is an ordered association list of string keys to values, mirroring
`Object.keys` enumeration order.  The side-effecting bodies of
`Template.froalaReactive.rendered`, its `autorun` block, and
`Template.froalaReactive.destroyed` are modelled as pure functions that
return the list of jQuery/Froala calls they issue, in issue order.
-/

namespace FroalaReactive

/-- A JavaScript runtime value.  Functions are identified by an id
(underscore's `_.isEqual` compares functions by reference identity);
arrays model deeply-structured values so that deep equality is
distinguishable from reference comparison. -/
inductive JSVal where
  | undefined
  | null
  | boolean (b : Bool)
  | num (n : Int)
  | str (s : String)
  | fn (id : Nat)
  | arr (elems : List JSVal)
deriving Repr

mutual

/-- Model of underscore's `_.isEqual`: deep structural equality on values,
reference identity on functions. -/
def isEqual : JSVal → JSVal → Bool
  | .undefined, .undefined => true
  | .null, .null => true
  | .boolean a, .boolean b => a == b
  | .num a, .num b => a == b
  | .str a, .str b => a == b
  | .fn a, .fn b => a == b
  | .arr as, .arr bs => isEqualList as bs
  | _, _ => false

/-- Deep equality, element-wise on array contents. -/
def isEqualList : List JSVal → List JSVal → Bool
  | [], [] => true
  | a :: as, b :: bs => isEqual a b && isEqualList as bs
  | _, _ => false

end

/-- Model of underscore's `_.isFunction`. -/
def JSVal.isFunction : JSVal → Bool
  | .fn _ => true
  | _ => false

/-- JavaScript truthiness: `undefined`, `null`, `false`, `0` and the empty
string are falsy; everything else in this model is truthy. -/
def JSVal.truthy : JSVal → Bool
  | .undefined => false
  | .null => false
  | .boolean b => b
  | .num n => n != 0
  | .str s => s != ""
  | .fn _ => true
  | .arr _ => true

/-- JS `s.indexOf(pre) === 0`, i.e. `s` starts with the substring `pre`.
Computed on the character lists so that it evaluates by kernel reduction. -/
def jsStartsWith (s pre : String) : Bool := pre.data.isPrefixOf s.data

/-- Lowercasing a string, character by character.  Used only to state the
spec's "lowercased" wording; the source never lowercases. -/
def jsToLower (s : String) : String := ⟨s.data.map Char.toLower⟩

/-- An Options Snapshot (a template data context): an ordered mapping from
option names to values.  The order of the entries models `Object.keys`
enumeration order; JavaScript object keys are unique, which theorems record
as a `Nodup` hypothesis where it matters. -/
abbrev Snapshot := List (String × JSVal)

/-- `Object.keys(d)`, in enumeration order. -/
def keys (d : Snapshot) : List String := d.map Prod.fst

/-- JavaScript property read `d[k]`: the value stored under `k`, or
`undefined` when the key is absent. -/
def get (d : Snapshot) (k : String) : JSVal :=
  match d.find? (fun p => p.1 == k) with
  | some p => p.2
  | none => .undefined

/-- `getEventHandlerNames` (src/froala-reactive.js:175-180): the keys of the
data context that start with `'_on'` (JS `opt.indexOf('_on') === 0` is
equivalent to the startsWith test) and whose value is a function, in
`Object.keys` enumeration order. -/
def getEventHandlerNames (tmplData : Snapshot) : List String :=
  (keys tmplData).filter (fun opt =>
    jsStartsWith opt "_on" && (get tmplData opt).isFunction)

/-- A jQuery result object `$input`: its `length` (number of matched DOM
elements) and its `froalaEditable` / `editable` properties, whose
callability the plugin probe tests. -/
structure JQueryHandle where
  length : Nat
  froalaEditable : JSVal
  editable : JSVal
deriving Repr

/-- `getFroalaEditableJQueryInstanceMethod` (src/froala-reactive.js:158-170):
returns `'froalaEditable'` when that aliased instance method is a function,
else `'editable'` when that original instance method is a function, else the
`null` sentinel (here `none`).  The JS guard `if (froalaJQueryObject)` is
modelled by the `Option` on the argument. -/
def getFroalaEditableJQueryInstanceMethod
    (froalaJQueryObject : Option JQueryHandle) : Option String :=
  match froalaJQueryObject with
  | some jq =>
    if jq.froalaEditable.isFunction then some "froalaEditable"
    else if jq.editable.isFunction then some "editable"
    else none
  | none => none

/-- One call issued through `$input[froalaMethod](...)`, `$input.on`, or
`$input.unbind`, as performed by the adapter. -/
inductive FroalaCall where
  /-- `$input[froalaMethod](tmpl.data)`: widget instantiation. -/
  | init (data : Snapshot)
  /-- `$input[froalaMethod]('setHTML', v)`: content set. -/
  | setHTML (value : JSVal)
  /-- `$input[froalaMethod]('restoreSelectionByMarkers')`. -/
  | restoreSelectionByMarkers
  /-- `$input[froalaMethod]('option', name, v)`: generic option setter. -/
  | setOption (name : String) (value : JSVal)
  /-- `$input.on(eventName, handler)`: DOM event subscription. -/
  | subscribe (eventName : String)
  /-- `$input.unbind(eventName)`: DOM event unsubscription. -/
  | unbind (eventName : String)
  /-- `$input[froalaMethod]('destroy')`. -/
  | destroy
deriving Repr

/-- The DOM event name derived from an `_on`-prefixed key
(src/froala-reactive.js:66,129): `'editable.' + opt.substring(3)`, i.e. the
key with its first three characters (the `'_on'` prefix) removed, verbatim. -/
def derivedEventName (opt : String) : String :=
  "editable." ++ opt.drop 3

/-- The state a mounted template instance holds between calls: `tmpl.data`
as captured at mount (the adapter never reassigns it), the `lastData`
variable of the `rendered` closure, and the resolved `froalaMethod` name. -/
structure MountedInstance where
  tmplData : Snapshot
  lastData : Snapshot
  froalaMethod : String
deriving Repr

/-- The calls issued by the body of `rendered` after its two guards pass
(src/froala-reactive.js:56-78): instantiation with the full data context,
then `setHTML` when `tmpl.data._value` is truthy, then one `$input.on`
subscription per event-handler name. -/
def renderedCalls (data : Snapshot) : List FroalaCall :=
  [.init data]
    ++ (if (get data "_value").truthy then [.setHTML (get data "_value")] else [])
    ++ (getEventHandlerNames data).map (fun opt => .subscribe (derivedEventName opt))

/-- `Template.froalaReactive.rendered` (src/froala-reactive.js:41-78), up to
the installation of the autorun block: throws `invalid-froala-reactive-template`
unless exactly one element matched; throws `invalid-froala-editor-plugin`
unless a Froala instance method resolved; otherwise issues `renderedCalls`
and leaves a mounted instance whose `lastData` starts as `tmpl.data`. -/
def rendered (jq : JQueryHandle) (data : Snapshot) :
    Except String (List FroalaCall × MountedInstance) :=
  if jq.length ≠ 1 then .error "invalid-froala-reactive-template"
  else
    match getFroalaEditableJQueryInstanceMethod (some jq) with
    | none => .error "invalid-froala-editor-plugin"
    | some m =>
      .ok (renderedCalls data, { tmplData := data, lastData := data, froalaMethod := m })

/-- One execution of the autorun body (src/froala-reactive.js:81-108) as a
pure function of (lastData, the new `Template.currentData()`): the calls it
issues, and the new value of `lastData` (the new data, unconditionally). -/
def autorunStep (lastData newData : Snapshot) : List FroalaCall × Snapshot :=
  let valueCalls : List FroalaCall :=
    if (get newData "_value").truthy
        && !(isEqual (get lastData "_value") (get newData "_value")) then
      [.setHTML (get newData "_value"), .restoreSelectionByMarkers]
    else []
  let changedOpts : List String :=
    (keys newData).filter (fun opt =>
      -- JS `opt.indexOf('_') !== 0` is equivalent to not starting with '_'
      !(jsStartsWith opt "_") && !(isEqual (get lastData opt) (get newData opt)))
  let optionCalls : List FroalaCall :=
    changedOpts.map (fun opt => .setOption opt (get newData opt))
  (valueCalls ++ optionCalls, newData)

/-- One reactive recomputation applied to a mounted instance: runs
`autorunStep` on the instance's `lastData` and the new data context, and
stores the new data as `lastData`.  `tmpl.data` is untouched. -/
def applyUpdate (st : MountedInstance) (newData : Snapshot) :
    MountedInstance × List FroalaCall :=
  let r := autorunStep st.lastData newData
  ({ st with lastData := r.2 }, r.1)

/-- The instance state after a sequence of reactive data-context changes. -/
def runUpdates (st : MountedInstance) (updates : List Snapshot) : MountedInstance :=
  updates.foldl (fun s d => (applyUpdate s d).1) st

/-- What one invocation of a subscribed DOM event handler does
(src/froala-reactive.js:67-77). -/
structure HandlerInvocation where
  /-- `e.preventDefault()` was called. -/
  preventDefaultCalled : Bool
  /-- The function that was invoked: `tmpl.data[opt]`. -/
  invokedCallback : JSVal
  /-- The `this` context of the invocation: the closure's current `lastData`. -/
  selfContext : Snapshot
  /-- The arguments forwarded to the callback: `arguments`, i.e. `(e, editor)`
  as supplied by the Froala event. -/
  args : List JSVal
deriving Repr

/-- Firing the DOM event subscribed for key `opt` on a mounted instance in
state `st`: the handler calls `e.preventDefault()` then
`tmpl.data[opt].apply(lastData, arguments)`. -/
def fireEvent (st : MountedInstance) (opt : String) (args : List JSVal) :
    HandlerInvocation :=
  { preventDefaultCalled := true
    invokedCallback := get st.tmplData opt
    selfContext := st.lastData
    args := args }

/-- `Template.froalaReactive.destroyed` (src/froala-reactive.js:117-139) as a
pure function.  `tmplData` is the instance's `tmpl.data`; `destroyOutcome`
models whether the external `destroy` call throws (`.error`) or not (`.ok`).
The result is `.ok` with the list of issued calls: the body never throws —
when no instance method resolves it returns early having issued nothing,
and the `destroy` call is wrapped in `try { ... } catch (err) {}`. -/
def destroyed (jq : Option JQueryHandle) (tmplData : Snapshot)
    (destroyOutcome : Except String Unit) : Except String (List FroalaCall) :=
  match getFroalaEditableJQueryInstanceMethod jq with
  | none => .ok []
  | some _ =>
    let unbindCalls : List FroalaCall :=
      (getEventHandlerNames tmplData).map (fun opt => .unbind (derivedEventName opt))
    match destroyOutcome with
    | .ok _ => .ok (unbindCalls ++ [.destroy])
    | .error _ => .ok (unbindCalls ++ [.destroy])

/-- Is this call `setOption k _` for the given key `k`? -/
def isSetOptionFor (k : String) : FroalaCall → Bool
  | .setOption n _ => n == k
  | _ => false

/-- Is this call a `setHTML` (content-set) call? -/
def isSetHTML : FroalaCall → Bool
  | .setHTML _ => true
  | _ => false

/-- Is this call a `restoreSelectionByMarkers` (selection-restore) call? -/
def isRestore : FroalaCall → Bool
  | .restoreSelectionByMarkers => true
  | _ => false

/-- The `(name, value)` pairs of the generic option-setter calls in a call
list, in issue order. -/
def setOptionCalls : List FroalaCall → List (String × JSVal)
  | [] => []
  | .setOption n v :: rest => (n, v) :: setOptionCalls rest
  | _ :: rest => setOptionCalls rest

/-- The event names of the `$input.on` subscriptions in a call list. -/
def subscribedEventNames : List FroalaCall → List String
  | [] => []
  | .subscribe e :: rest => e :: subscribedEventNames rest
  | _ :: rest => subscribedEventNames rest

/-- The event names of the `$input.unbind` calls in a call list. -/
def unboundEventNames : List FroalaCall → List String
  | [] => []
  | .unbind e :: rest => e :: unboundEventNames rest
  | _ :: rest => unboundEventNames rest

/-! ### Shared helper lemmas -/

lemma countP_beq_of_nodup {l : List String} (hnd : l.Nodup) (k : String) :
    l.countP (fun opt => opt == k) = if k ∈ l then 1 else 0 := by
  induction l with
  | nil => simp
  | cons a rest ih =>
    rw [List.countP_cons]
    rcases List.nodup_cons.mp hnd with ⟨hna, hrest⟩
    rw [ih hrest]
    by_cases hak : a = k
    · subst hak
      have : a ∉ rest := hna
      simp [this]
    · simp [hak, Ne.symm hak]

lemma runUpdates_tmplData (st : MountedInstance) (updates : List Snapshot) :
    (runUpdates st updates).tmplData = st.tmplData := by
  induction updates generalizing st with
  | nil => rfl
  | cons d rest ih => exact ih ((applyUpdate st d).1)

lemma rendered_ok_inv {jq : JQueryHandle} {data : Snapshot} {calls : List FroalaCall}
    {st : MountedInstance} (h : rendered jq data = .ok (calls, st)) :
    jq.length = 1 ∧
    getFroalaEditableJQueryInstanceMethod (some jq) = some st.froalaMethod ∧
    calls = renderedCalls data ∧ st.tmplData = data ∧ st.lastData = data := by
  unfold rendered at h
  by_cases hl : jq.length ≠ 1
  · rw [if_pos hl] at h
    exact absurd h (by simp)
  · rw [if_neg hl] at h
    push_neg at hl
    cases hm : getFroalaEditableJQueryInstanceMethod (some jq) with
    | none =>
      rw [hm] at h
      exact absurd h (by simp)
    | some m =>
      rw [hm] at h
      simp only [Except.ok.injEq, Prod.mk.injEq] at h
      obtain ⟨hc, hst⟩ := h
      subst hst
      exact ⟨hl, rfl, hc.symm, rfl, rfl⟩

lemma countP_map_eq_zero {α : Type} (l : List α) (f : α → FroalaCall)
    (p : FroalaCall → Bool) (hp : ∀ a, p (f a) = false) :
    (l.map f).countP p = 0 := by
  rw [List.countP_map]
  exact List.countP_eq_zero.mpr (fun a _ => by simp [Function.comp, hp])

lemma subscribedEventNames_append (a b : List FroalaCall) :
    subscribedEventNames (a ++ b) = subscribedEventNames a ++ subscribedEventNames b := by
  induction a with
  | nil => rfl
  | cons c rest ih => cases c <;> simp [subscribedEventNames, ih]

lemma subscribedEventNames_map (l : List String) (g : String → String) :
    subscribedEventNames (l.map (fun opt => FroalaCall.subscribe (g opt))) = l.map g := by
  induction l with
  | nil => rfl
  | cons a rest ih => simp [subscribedEventNames, ih]

lemma unboundEventNames_map_destroy (l : List String) (g : String → String) :
    unboundEventNames ((l.map (fun opt => FroalaCall.unbind (g opt))) ++ [FroalaCall.destroy])
      = l.map g := by
  induction l with
  | nil => rfl
  | cons a rest ih => simp [unboundEventNames, ih]

lemma subscribedEventNames_renderedCalls (data : Snapshot) :
    subscribedEventNames (renderedCalls data)
      = (getEventHandlerNames data).map derivedEventName := by
  unfold renderedCalls
  rw [subscribedEventNames_append, subscribedEventNames_append, subscribedEventNames_map]
  have h1 : subscribedEventNames [FroalaCall.init data] = [] := rfl
  have h2 : subscribedEventNames
      (if (get data "_value").truthy then [FroalaCall.setHTML (get data "_value")] else [])
      = [] := by split <;> rfl
  rw [h1, h2]
  rfl

/-! ### Concrete data used by witnesses and counterexamples -/

/-- A snapshot with two generic options and a reserved `_value`. -/
def exS1 : Snapshot := [("color", .str "blue"), ("theme", .str "dark"), ("_value", .str "a")]

/-- `exS1` with `color` changed; `theme` and `_value` unchanged. -/
def exS2 : Snapshot := [("color", .str "red"), ("theme", .str "dark"), ("_value", .str "a")]

/-- A jQuery handle matching one element, with the aliased `froalaEditable`
instance method present as a function. -/
def exJQ : JQueryHandle := { length := 1, froalaEditable := .fn 0, editable := .undefined }

/-- A jQuery handle matching zero elements. -/
def exJQ0 : JQueryHandle := { length := 0, froalaEditable := .fn 0, editable := .fn 0 }

/-- A jQuery handle matching one element but exposing neither instance
method as a function. -/
def exJQnone : JQueryHandle := { length := 1, froalaEditable := .str "x", editable := .undefined }

/-- A jQuery handle on which both instance methods are functions. -/
def exJQboth : JQueryHandle := { length := 1, froalaEditable := .fn 0, editable := .fn 1 }

/-- A data context with a single event binding `_onSave`. -/
def exOnData : Snapshot := [("_onSave", .fn 1)]

/-- `exOnData` with the `_onSave` callback replaced by a different function. -/
def exOnData2 : Snapshot := [("_onSave", .fn 99)]

/-- The mounted-instance state produced by mounting `exJQ` with `exOnData`. -/
def exMount : MountedInstance :=
  { tmplData := exOnData, lastData := exOnData, froalaMethod := "froalaEditable" }

/-- A data context whose `_value` is the non-empty string `"a"`. -/
def exV1 : Snapshot := [("_value", .str "a")]

/-- A data context whose `_value` is the non-empty string `"b"`. -/
def exV2 : Snapshot := [("_value", .str "b")]

/-! ### C1 -/

/-- C1: a reactive recomputation from snapshot `S1` to snapshot `S2` issues a
generic option-setter call `('option', k, v)` exactly for those keys `k` of
`S2` that do not begin with `'_'` and whose value differs by deep equality
from `S1`'s value under `k`, with `v` the new value; each such key gets
exactly one call, and unchanged, reserved, or `S2`-absent keys get none
(`Object.keys` of the second snapshot has no duplicates, recorded as the
`Nodup` hypothesis). -/
theorem autorun_option_diff (S1 S2 : Snapshot) (hnd : (keys S2).Nodup) :
    (∀ k v, FroalaCall.setOption k v ∈ (autorunStep S1 S2).1 ↔
        (k ∈ keys S2 ∧ jsStartsWith k "_" = false ∧
          isEqual (get S1 k) (get S2 k) = false ∧ v = get S2 k)) ∧
    (∀ k, (autorunStep S1 S2).1.countP (isSetOptionFor k) =
        if k ∈ keys S2 ∧ jsStartsWith k "_" = false ∧ isEqual (get S1 k) (get S2 k) = false
        then 1 else 0) := by
  have hcalls : (autorunStep S1 S2).1 =
      (if (get S2 "_value").truthy
          && !(isEqual (get S1 "_value") (get S2 "_value")) then
        [FroalaCall.setHTML (get S2 "_value"), FroalaCall.restoreSelectionByMarkers]
      else [])
      ++ ((keys S2).filter (fun opt =>
            !(jsStartsWith opt "_") && !(isEqual (get S1 opt) (get S2 opt)))).map
          (fun opt => FroalaCall.setOption opt (get S2 opt)) := rfl
  constructor
  · intro k v
    rw [hcalls, List.mem_append]
    constructor
    · intro hmem
      rcases hmem with hv | ho
      · exfalso
        split at hv <;> simp at hv
      · rw [List.mem_map] at ho
        obtain ⟨opt, hopt, heq⟩ := ho
        rw [List.mem_filter] at hopt
        obtain ⟨hkm, hcond⟩ := hopt
        simp only [Bool.and_eq_true, Bool.not_eq_true'] at hcond
        obtain ⟨h1, h2⟩ := hcond
        obtain ⟨hok, hov⟩ : opt = k ∧ get S2 opt = v := by
          cases heq; exact ⟨rfl, rfl⟩
        subst hok
        exact ⟨hkm, h1, h2, hov.symm⟩
    · rintro ⟨hk, hsw, hne, hv⟩
      refine Or.inr (List.mem_map.mpr ⟨k, List.mem_filter.mpr ⟨hk, ?_⟩, by rw [hv]⟩)
      simp [hsw, hne]
  · intro k
    rw [hcalls, List.countP_append, List.countP_map]
    have hvc : ∀ l : List FroalaCall,
        (l = [FroalaCall.setHTML (get S2 "_value"), FroalaCall.restoreSelectionByMarkers]
          ∨ l = []) → l.countP (isSetOptionFor k) = 0 := by
      rintro l (rfl | rfl) <;> simp [List.countP_cons, List.countP_nil, isSetOptionFor]
    rw [hvc _ (by split <;> [exact Or.inl rfl; exact Or.inr rfl])]
    have hcomp : ((keys S2).filter (fun opt =>
        !(jsStartsWith opt "_") && !(isEqual (get S1 opt) (get S2 opt)))).countP
          (isSetOptionFor k ∘ fun opt => FroalaCall.setOption opt (get S2 opt))
        = ((keys S2).filter (fun opt =>
            !(jsStartsWith opt "_") && !(isEqual (get S1 opt) (get S2 opt)))).countP
          (fun opt => opt == k) := by
      apply List.countP_congr
      intro a _
      simp [isSetOptionFor, Function.comp]
    rw [hcomp, countP_beq_of_nodup (hnd.filter _) k]
    by_cases hmem : k ∈ (keys S2).filter (fun opt =>
        !(jsStartsWith opt "_") && !(isEqual (get S1 opt) (get S2 opt)))
    · rw [if_pos hmem]
      rw [List.mem_filter] at hmem
      obtain ⟨hkm, hcond⟩ := hmem
      simp only [Bool.and_eq_true, Bool.not_eq_true'] at hcond
      rw [if_pos ⟨hkm, hcond.1, hcond.2⟩]
    · rw [if_neg hmem]
      rw [if_neg]
      rintro ⟨hkm, h1, h2⟩
      exact hmem (List.mem_filter.mpr ⟨hkm, by simp [h1, h2]⟩)

/-- Witness for C1 at concrete snapshots: `color` changed from `"blue"` to
`"red"`, so the recomputation issues the option-setter call for `color`. -/
theorem autorun_option_diff_witness :
    (keys exS2).Nodup ∧
      FroalaCall.setOption "color" (JSVal.str "red") ∈ (autorunStep exS1 exS2).1 :=
  ⟨by decide,
    ((autorun_option_diff exS1 exS2 (by decide)).1 "color" (JSVal.str "red")).mpr
      ⟨by decide, by decide, by decide, rfl⟩⟩

/-! ### C2 -/

/-- C2: during a reactive recomputation from `S1` to `S2`, if the new
`_value` is truthy (present and non-empty) and differs by deep equality from
the last-known `_value`, the calls issued start with exactly one `setHTML`
of the new value immediately followed by exactly one
`restoreSelectionByMarkers`, and each occurs exactly once overall; when
`_value` is absent, falsy, or deep-equal to the last-known value, no
`setHTML` call is issued. -/
theorem autorun_value_sync (S1 S2 : Snapshot) :
    (((get S2 "_value").truthy = true ∧
        isEqual (get S1 "_value") (get S2 "_value") = false) →
      ((autorunStep S1 S2).1.head? = some (.setHTML (get S2 "_value")) ∧
        (autorunStep S1 S2).1[1]? = some .restoreSelectionByMarkers ∧
        (autorunStep S1 S2).1.countP isSetHTML = 1 ∧
        (autorunStep S1 S2).1.countP isRestore = 1)) ∧
    (((get S2 "_value").truthy = false ∨
        isEqual (get S1 "_value") (get S2 "_value") = true) →
      (autorunStep S1 S2).1.countP isSetHTML = 0) := by
  constructor
  · rintro ⟨h1, h2⟩
    have hcalls : (autorunStep S1 S2).1 =
        FroalaCall.setHTML (get S2 "_value") :: FroalaCall.restoreSelectionByMarkers ::
          ((keys S2).filter (fun opt =>
              !(jsStartsWith opt "_") && !(isEqual (get S1 opt) (get S2 opt)))).map
            (fun opt => FroalaCall.setOption opt (get S2 opt)) := by
      simp [autorunStep, h1, h2]
    rw [hcalls]
    refine ⟨rfl, by simp, ?_, ?_⟩
    · rw [List.countP_cons, List.countP_cons,
        countP_map_eq_zero _ _ _ (fun a => rfl)]
      rfl
    · rw [List.countP_cons, List.countP_cons,
        countP_map_eq_zero _ _ _ (fun a => rfl)]
      rfl
  · intro h
    have hc : ((get S2 "_value").truthy
        && !(isEqual (get S1 "_value") (get S2 "_value"))) = false := by
      rcases h with h | h <;> simp [h]
    have hcalls : (autorunStep S1 S2).1 =
        ((keys S2).filter (fun opt =>
            !(jsStartsWith opt "_") && !(isEqual (get S1 opt) (get S2 opt)))).map
          (fun opt => FroalaCall.setOption opt (get S2 opt)) := by
      simp [autorunStep, hc]
    rw [hcalls, countP_map_eq_zero _ _ _ (fun a => rfl)]

/-- Witness for C2: `_value` changes from `"a"` to `"b"`, so the
recomputation issues `setHTML "b"` then `restoreSelectionByMarkers`, once
each. -/
theorem autorun_value_sync_witness :
    (autorunStep exV1 exV2).1.head? = some (.setHTML (get exV2 "_value")) ∧
      (autorunStep exV1 exV2).1[1]? = some .restoreSelectionByMarkers ∧
      (autorunStep exV1 exV2).1.countP isSetHTML = 1 ∧
      (autorunStep exV1 exV2).1.countP isRestore = 1 :=
  (autorun_value_sync exV1 exV2).1 ⟨by decide, by decide⟩

/-! ### C10 -/

/-- C10: when mount succeeds, the first call is widget instantiation with
the full snapshot; when the initial `_value` is truthy, the second call is
the single `setHTML` of that value and no `restoreSelectionByMarkers` call
is issued at mount; when `_value` is absent or falsy, mount issues no
`setHTML` call. -/
theorem rendered_initial_content (jq : JQueryHandle) (data : Snapshot)
    (calls : List FroalaCall) (st : MountedInstance)
    (h : rendered jq data = .ok (calls, st)) :
    calls.head? = some (.init data) ∧
    ((get data "_value").truthy = true →
      calls[1]? = some (.setHTML (get data "_value")) ∧
      calls.countP isSetHTML = 1 ∧
      FroalaCall.restoreSelectionByMarkers ∉ calls) ∧
    ((get data "_value").truthy = false → calls.countP isSetHTML = 0) := by
  obtain ⟨-, -, hc, -, -⟩ := rendered_ok_inv h
  subst hc
  refine ⟨?_, ?_, ?_⟩
  · rfl
  · intro ht
    have hcalls : renderedCalls data =
        FroalaCall.init data :: FroalaCall.setHTML (get data "_value") ::
          (getEventHandlerNames data).map
            (fun opt => FroalaCall.subscribe (derivedEventName opt)) := by
      simp [renderedCalls, ht]
    rw [hcalls]
    refine ⟨by simp, ?_, ?_⟩
    · rw [List.countP_cons, List.countP_cons,
        countP_map_eq_zero _ _ _ (fun a => rfl)]
      rfl
    · intro hmem
      simp only [List.mem_cons, List.mem_map] at hmem
      rcases hmem with h | h | ⟨opt, -, heq⟩
      · exact FroalaCall.noConfusion h
      · exact FroalaCall.noConfusion h
      · exact FroalaCall.noConfusion heq
  · intro ht
    have hcalls : renderedCalls data =
        FroalaCall.init data ::
          (getEventHandlerNames data).map
            (fun opt => FroalaCall.subscribe (derivedEventName opt)) := by
      simp [renderedCalls, ht]
    rw [hcalls, List.countP_cons, countP_map_eq_zero _ _ _ (fun a => rfl)]
    rfl

/-- Witness for C10: mounting `exJQ` with data whose `_value` is `"a"`
issues exactly one `setHTML` and no selection restore. -/
theorem rendered_initial_content_witness :
    (renderedCalls exV1).countP isSetHTML = 1 ∧
      FroalaCall.restoreSelectionByMarkers ∉ renderedCalls exV1 := by
  have h := rendered_initial_content exJQ exV1 (renderedCalls exV1)
    { tmplData := exV1, lastData := exV1, froalaMethod := "froalaEditable" } rfl
  exact ⟨(h.2.1 (by decide)).2.1, (h.2.1 (by decide)).2.2⟩

/-! ### C5 -/

/-- C5: when the DOM lookup matches a number of elements other than one,
mount throws `invalid-froala-reactive-template` and never reaches a
successful result, so no widget instantiation, content set, or event
subscription is performed. -/
theorem rendered_structural_error (jq : JQueryHandle) (data : Snapshot)
    (h : jq.length ≠ 1) :
    rendered jq data = .error "invalid-froala-reactive-template" ∧
      ∀ calls st, rendered jq data ≠ .ok (calls, st) := by
  have he : rendered jq data = .error "invalid-froala-reactive-template" := by
    unfold rendered
    rw [if_pos h]
  refine ⟨he, fun calls st hok => ?_⟩
  rw [he] at hok
  exact Except.noConfusion hok

/-- Witness for C5: a lookup matching zero elements fails structurally. -/
theorem rendered_structural_error_witness :
    rendered exJQ0 exS1 = .error "invalid-froala-reactive-template" :=
  (rendered_structural_error exJQ0 exS1 (by decide)).1

/-! ### C6 -/

/-- C6: when exactly one element matches but neither `froalaEditable` nor
`editable` is a function, mount throws `invalid-froala-editor-plugin` and
never instantiates the widget; and method resolution returns the aliased
`'froalaEditable'` whenever it is a function (checked first), else
`'editable'` when that is a function, else the `none` sentinel. -/
theorem rendered_plugin_resolution (jq : JQueryHandle) (data : Snapshot) :
    ((jq.length = 1 ∧ jq.froalaEditable.isFunction = false ∧
        jq.editable.isFunction = false) →
      rendered jq data = .error "invalid-froala-editor-plugin" ∧
        ∀ calls st, rendered jq data ≠ .ok (calls, st)) ∧
    (jq.froalaEditable.isFunction = true →
      getFroalaEditableJQueryInstanceMethod (some jq) = some "froalaEditable") ∧
    ((jq.froalaEditable.isFunction = false ∧ jq.editable.isFunction = true) →
      getFroalaEditableJQueryInstanceMethod (some jq) = some "editable") ∧
    ((jq.froalaEditable.isFunction = false ∧ jq.editable.isFunction = false) →
      getFroalaEditableJQueryInstanceMethod (some jq) = none) := by
  refine ⟨?_, ?_, ?_, ?_⟩
  · rintro ⟨hl, hf, he⟩
    have herr : rendered jq data = .error "invalid-froala-editor-plugin" := by
      unfold rendered
      rw [if_neg (by rw [hl]; exact fun hne => hne rfl)]
      simp [getFroalaEditableJQueryInstanceMethod, hf, he]
    refine ⟨herr, fun calls st hok => ?_⟩
    rw [herr] at hok
    exact Except.noConfusion hok
  · intro hf
    simp [getFroalaEditableJQueryInstanceMethod, hf]
  · rintro ⟨hf, he⟩
    simp [getFroalaEditableJQueryInstanceMethod, hf, he]
  · rintro ⟨hf, he⟩
    simp [getFroalaEditableJQueryInstanceMethod, hf, he]

/-- Witness for C6: a handle with neither method callable fails with the
plugin error, and a handle with both methods callable resolves to the
aliased name. -/
theorem rendered_plugin_resolution_witness :
    rendered exJQnone exS1 = .error "invalid-froala-editor-plugin" ∧
      getFroalaEditableJQueryInstanceMethod (some exJQboth) = some "froalaEditable" :=
  ⟨((rendered_plugin_resolution exJQnone exS1).1 ⟨by decide, by decide, by decide⟩).1,
    (rendered_plugin_resolution exJQboth exS1).2.1 (by decide)⟩

/-! ### C7 -/

/-- C7: unmount never throws: `destroyed` always yields a successful result,
is a no-op (issues no calls) when no instance method resolves, and succeeds
even when the widget's `destroy` call itself throws (the exception is caught
and discarded). -/
theorem destroyed_never_throws (jq : Option JQueryHandle) (data : Snapshot)
    (outcome : Except String Unit) :
    (∃ calls, destroyed jq data outcome = .ok calls) ∧
    (getFroalaEditableJQueryInstanceMethod jq = none →
      destroyed jq data outcome = .ok []) ∧
    (∀ e, destroyed jq data outcome ≠ .error e) := by
  unfold destroyed
  cases hm : getFroalaEditableJQueryInstanceMethod jq with
  | none =>
    refine ⟨⟨[], rfl⟩, fun _ => rfl, fun e hcontra => Except.noConfusion hcontra⟩
  | some m =>
    cases outcome with
    | ok u =>
      exact ⟨⟨_, rfl⟩, fun hcontra => Option.noConfusion hcontra,
        fun e hcontra => Except.noConfusion hcontra⟩
    | error err =>
      exact ⟨⟨_, rfl⟩, fun hcontra => Option.noConfusion hcontra,
        fun e hcontra => Except.noConfusion hcontra⟩

/-- Witness for C7: unmount with no resolvable widget integration is a
no-op even when the underlying destroy would have thrown. -/
theorem destroyed_never_throws_witness :
    destroyed none exS1 (Except.error "dom-already-gone") = .ok [] :=
  (destroyed_never_throws none exS1 (Except.error "dom-already-gone")).2.1 rfl

/-! ### C8 -/

/-- C8: for a successful mount followed by any sequence of reactive
data-context updates, unmount on the same handle unbinds exactly the event
names that mount subscribed, in the same order, regardless of how the
updates added, removed, or altered `_on`-prefixed keys. -/
theorem destroyed_unbinds_mount_subscriptions (jq : JQueryHandle) (data : Snapshot)
    (calls : List FroalaCall) (st : MountedInstance)
    (h : rendered jq data = .ok (calls, st)) (updates : List Snapshot)
    (outcome : Except String Unit) :
    (destroyed (some jq) (runUpdates st updates).tmplData outcome).map unboundEventNames
      = .ok (subscribedEventNames calls) := by
  obtain ⟨-, hm, hc, ht, -⟩ := rendered_ok_inv h
  subst hc
  rw [runUpdates_tmplData, ht]
  unfold destroyed
  rw [hm]
  rw [subscribedEventNames_renderedCalls]
  cases outcome with
  | ok u =>
    exact congrArg Except.ok
      (unboundEventNames_map_destroy (getEventHandlerNames data) derivedEventName)
  | error err =>
    exact congrArg Except.ok
      (unboundEventNames_map_destroy (getEventHandlerNames data) derivedEventName)

/-- Witness for C8: mounting with an `_onSave` binding and then updating the
data context to a different callback still unbinds exactly the
`editable.Save` subscription made at mount. -/
theorem destroyed_unbinds_mount_subscriptions_witness :
    (destroyed (some exJQ) (runUpdates exMount [exOnData2]).tmplData
        (Except.ok ())).map unboundEventNames
      = .ok (subscribedEventNames (renderedCalls exOnData)) :=
  destroyed_unbinds_mount_subscriptions exJQ exOnData (renderedCalls exOnData)
    exMount rfl [exOnData2] (Except.ok ())

/-! ### C3 -/

/-- Counterexample to C3 as stated: mounting with the single binding
`_onSave` subscribes under the event name `editable.Save` — the key with the
`_on` prefix stripped, verbatim — and not under the lowercased
`editable.save` that the claim requires.  The lowercased name is never
subscribed. -/
theorem subscription_eventName_not_lowercased :
    rendered exJQ exOnData = .ok (renderedCalls exOnData, exMount) ∧
    subscribedEventNames (renderedCalls exOnData) = ["editable.Save"] ∧
    ("editable." ++ jsToLower ("_onSave".drop 3))
      ∉ subscribedEventNames (renderedCalls exOnData) ∧
    "editable." ++ jsToLower ("_onSave".drop 3) = "editable.save" :=
  ⟨rfl, by decide, by decide, by decide⟩

/-- C3 (amended): for every `_on<Name>` key of the initial snapshot whose
value is callable, mount subscribes a handler under the event name
`'editable.' ++ <Name>` with the `_on` prefix stripped verbatim (no
lowercasing); each invocation of the handler suppresses the DOM default
action and invokes the bound callback with the forwarded arguments, with
`this` set to the current (last-known) reactive data context of the
instance, not the snapshot captured at subscription time. -/
theorem event_subscription_and_dispatch (jq : JQueryHandle) (data : Snapshot)
    (calls : List FroalaCall) (st : MountedInstance)
    (h : rendered jq data = .ok (calls, st)) :
    (∀ opt ∈ getEventHandlerNames data,
      FroalaCall.subscribe ("editable." ++ opt.drop 3) ∈ calls) ∧
    (∀ (updates : List Snapshot) (opt : String) (args : List JSVal),
      (fireEvent (runUpdates st updates) opt args).preventDefaultCalled = true ∧
      (fireEvent (runUpdates st updates) opt args).args = args ∧
      (fireEvent (runUpdates st updates) opt args).selfContext
        = (runUpdates st updates).lastData) := by
  obtain ⟨-, -, hc, -, -⟩ := rendered_ok_inv h
  subst hc
  refine ⟨fun opt hopt => ?_, fun updates opt args => ⟨rfl, rfl, rfl⟩⟩
  unfold renderedCalls
  rw [List.mem_append]
  refine Or.inr (List.mem_map.mpr ⟨opt, hopt, ?_⟩)
  rfl

/-- Witness for C3 (amended): the `_onSave` binding is subscribed under
`editable.Save`, and firing it suppresses the default action. -/
theorem event_subscription_and_dispatch_witness :
    FroalaCall.subscribe ("editable." ++ "_onSave".drop 3) ∈ renderedCalls exOnData ∧
      (fireEvent (runUpdates exMount [exOnData2]) "_onSave" []).preventDefaultCalled
        = true := by
  have h := event_subscription_and_dispatch exJQ exOnData (renderedCalls exOnData)
    exMount rfl
  exact ⟨h.1 "_onSave" (by decide), (h.2 [exOnData2] "_onSave" []).1⟩

/-! ### C4 -/

/-- C4: event callbacks are bound once, from the initial snapshot: after any
sequence of reactive data-context updates, firing a handler registered at
mount invokes the callback stored under that key in the initial snapshot,
so a later change to the key's value in the reactive data context has no
effect on which function is invoked. -/
theorem callback_bound_from_initial_snapshot (jq : JQueryHandle) (data : Snapshot)
    (calls : List FroalaCall) (st : MountedInstance)
    (h : rendered jq data = .ok (calls, st)) (updates : List Snapshot)
    (opt : String) (args : List JSVal) :
    (fireEvent (runUpdates st updates) opt args).invokedCallback = get data opt := by
  obtain ⟨-, -, -, ht, -⟩ := rendered_ok_inv h
  have hfe : (fireEvent (runUpdates st updates) opt args).invokedCallback
      = get (runUpdates st updates).tmplData opt := rfl
  rw [hfe, runUpdates_tmplData, ht]

/-- Witness for C4: after an update replacing the `_onSave` callback with
`fn 99`, the handler still invokes the initial snapshot's `fn 1`. -/
theorem callback_bound_from_initial_snapshot_witness :
    (fireEvent (runUpdates exMount [exOnData2]) "_onSave" []).invokedCallback
      = JSVal.fn 1 :=
  callback_bound_from_initial_snapshot exJQ exOnData (renderedCalls exOnData)
    exMount rfl [exOnData2] "_onSave" []

/-! ### C9 -/

/-- C9: event-binding discovery is pure and returns exactly the subsequence
of the snapshot's keys (preserving enumeration order) that start with `_on`
and whose value is callable; on the spec's example snapshot it returns
`["_onSave", "_onSave2"]`. -/
theorem getEventHandlerNames_spec :
    (∀ data : Snapshot, (getEventHandlerNames data).Sublist (keys data)) ∧
    (∀ (data : Snapshot) (opt : String),
      opt ∈ getEventHandlerNames data ↔
        (opt ∈ keys data ∧ jsStartsWith opt "_on" = true ∧
          (get data opt).isFunction = true)) ∧
    getEventHandlerNames
        [("_onSave", JSVal.fn 0), ("_onLoad", JSVal.str "x"), ("foo", JSVal.fn 1),
          ("_onSave2", JSVal.fn 2)]
      = ["_onSave", "_onSave2"] := by
  refine ⟨fun data => List.filter_sublist _, fun data opt => ?_, by decide⟩
  simp [getEventHandlerNames, List.mem_filter, Bool.and_eq_true, and_assoc]

/-- Witness for C9: `_onSave` is discovered as an event binding of
`exOnData`. -/
theorem getEventHandlerNames_spec_witness :
    "_onSave" ∈ getEventHandlerNames exOnData :=
  (getEventHandlerNames_spec.2.1 exOnData "_onSave").mpr
    ⟨by decide, by decide, by decide⟩

end FroalaReactive
